import Mathlib

/-!
Shallow embedding of the partial-update / sentinel-driven edit protocol of the
`qord` repository (files `qord/models/channels.py` and `qord/models/guild_members.py`).

Conventions of the embedding:

* The process-wide sentinel `EMPTY` together with a parameter value is modelled
  by the two-constructor type `Arg`: `Arg.empty` is the sentinel default and
  `Arg.given v` is an explicitly passed value `v` (for nullable parameters `v`
  is itself an `Option`).
* JSON bodies are ordered association lists of key/value pairs, built in the
  same insertion order as the Python dict literals.
* Stateful methods become pure functions: each `edit`-style method takes the
  current entity state, the arguments, and the collaborator response as input,
  and returns the new entity state together with the list of REST collaborator
  calls issued (in order).  A Python `raise ValueError` before the network call
  becomes `Except.error`, so an error result by construction carries no calls
  and no new state, exactly as in the source where the exception propagates
  before `self._rest` is touched.
* Timestamps (`datetime`) are modelled as integers with the usual order;
  `isoformat` serialization is modelled by the `JsonValue.time` constructor.
* Snowflake ids are natural numbers.
-/

/-- Three-state argument protocol: `empty` models the sentinel `EMPTY`
default (`field omitted`), `given v` models an explicitly passed value. -/
inductive Arg (α : Type) where
  | empty : Arg α
  | given (v : α) : Arg α
deriving DecidableEq, Repr

/-- JSON wire values appearing in partial-update bodies. -/
inductive JsonValue where
  | null : JsonValue
  | str (s : String) : JsonValue
  | int (n : Int) : JsonValue
  | bool (b : Bool) : JsonValue
  | intList (l : List Nat) : JsonValue
  | time (t : Int) : JsonValue
deriving DecidableEq, Repr

/-- A partial-update JSON body: ordered key/value pairs, as built by the
Python dict in insertion order. -/
abbrev Body : Type := List (String × JsonValue)

/-- Serialization of an optional string (`None -> null`). -/
def jsonOptStr : Option String → JsonValue
  | none => .null
  | some s => .str s

/-- Serialization of an optional snowflake id (`None -> null`), used for
the `parent_id` key (`parent.id if parent is not None else None`). -/
def jsonOptId : Option Nat → JsonValue
  | none => .null
  | some i => .int i

/-- Serialization of an optional timestamp
(`timeout_until.isoformat() if timeout_until is not None else None`). -/
def jsonOptTime : Option Int → JsonValue
  | none => .null
  | some t => .time t

/-- Modelled from the spec: the numeric channel-type codes of
`qord.enums.ChannelType` (the `qord/enums.py` module is not among the
provided sources).  The spec describes a numeric discriminator per channel
variant; the concrete codes below are the distinct wire values. -/
def ChannelType.TEXT : Nat := 0

/-- Modelled from the spec: numeric code of the voice channel variant. -/
def ChannelType.VOICE : Nat := 2

/-- Modelled from the spec: numeric code of the category channel variant. -/
def ChannelType.CATEGORY : Nat := 4

/-- Modelled from the spec: numeric code of the news channel variant. -/
def ChannelType.NEWS : Nat := 5

/-- Modelled from the spec: numeric code of the stage channel variant. -/
def ChannelType.STAGE : Nat := 13

/-- REST collaborator calls that the modelled methods can issue. -/
inductive RestCall where
  | editChannel (channel_id : Nat) (json : List (String × JsonValue)) : RestCall
  | deleteChannel (channel_id : Nat) : RestCall
  | kickGuildMember (guild_id user_id : Nat) : RestCall
  | editGuildMember (guild_id user_id : Nat) (json : List (String × JsonValue)) : RestCall
  | addGuildMemberRole (guild_id user_id role_id : Nat) : RestCall
  | removeGuildMemberRole (guild_id user_id role_id : Nat) : RestCall
deriving DecidableEq, Repr

/-! ### Channel states and payloads (`qord/models/channels.py`) -/

/-- Base fields of `GuildChannel` (`_update_with_data` of the base class). -/
structure GuildChannelState where
  id : Nat
  type : Nat
  name : String
  position : Int
  parent_id : Option Nat
deriving DecidableEq, Repr

/-- A channel payload as received from the collaborator.  Fields read with
`data.get(key, default)` in the source are `Option`s here, with the default
applied during hydration. -/
structure ChannelData where
  id : Nat
  type : Nat
  name : String
  position : Option Int
  parent_id : Option Nat
  topic : Option String
  last_message_id : Option Nat
  rate_limit_per_user : Option Int
  default_auto_archive_duration : Option Nat
  nsfw : Option Bool
  last_pin_timestamp : Option Int
  bitrate : Option Int
  rtc_region : Option String
  user_limit : Option Int
  video_quality_mode : Option Int
deriving DecidableEq, Repr

/-- `GuildChannel._update_with_data`: hydration of the base fields. -/
def GuildChannelState.updateWithData (d : ChannelData) : GuildChannelState :=
  { id := d.id
    type := d.type
    name := d.name
    position := d.position.getD 1
    parent_id := d.parent_id }

/-- Fields of `TextChannel` (base fields plus the text-specific ones). -/
structure TextChannelState extends GuildChannelState where
  topic : Option String
  last_message_id : Option Nat
  slowmode_delay : Int
  default_auto_archive_duration : Nat
  nsfw : Bool
  last_pin_timestamp : Option Int
deriving DecidableEq, Repr

/-- `TextChannel._update_with_data`. -/
def TextChannelState.updateWithData (d : ChannelData) : TextChannelState :=
  { toGuildChannelState := GuildChannelState.updateWithData d
    topic := d.topic
    last_message_id := d.last_message_id
    slowmode_delay := d.rate_limit_per_user.getD 0
    default_auto_archive_duration := d.default_auto_archive_duration.getD 60
    nsfw := d.nsfw.getD false
    last_pin_timestamp := d.last_pin_timestamp }

/-- Fields of `VoiceChannel`.  Note `self.bitrate = data.get("bitrate")` has
no default in the source, so the field is an `Option`. -/
structure VoiceChannelState extends GuildChannelState where
  bitrate : Option Int
  rtc_region : Option String
  user_limit : Int
  video_quality_mode : Int
deriving DecidableEq, Repr

/-- `VoiceChannel._update_with_data`. -/
def VoiceChannelState.updateWithData (d : ChannelData) : VoiceChannelState :=
  { toGuildChannelState := GuildChannelState.updateWithData d
    bitrate := d.bitrate
    rtc_region := d.rtc_region
    user_limit := d.user_limit.getD 0
    video_quality_mode := d.video_quality_mode.getD 1 }

/-! ### Partial-update body construction for channel edits

The body building of each `edit` method is factored out of the method: the
Python code builds the dict `json` by a sequence of conditional insertions,
raising `ValueError` for invalid values before any network call; the
functions below reproduce that sequence in the `Except` monad. -/

/-- One conditional insertion step of the body-building code: the Python
pattern `if field is not EMPTY: json[key] = serialize(field)` (the body is
left unchanged when the field is the sentinel). -/
def appendArg {α : Type} (json : List (String × JsonValue)) (k : String)
    (f : α → JsonValue) : Arg α → List (String × JsonValue)
  | .empty => json
  | .given v => json ++ [(k, f v)]

/-- Body construction of `TextChannel.edit` (`channels.py`), in source
order: `name`, `type`, `position`, `nsfw`, `topic`, `slowmode_delay`,
`default_auto_archive_duration`, `parent`. -/
def TextChannel.editJson (name : Arg String) (type : Arg Nat) (position : Arg Int)
    (nsfw : Arg Bool) (parent : Arg (Option Nat)) (topic : Arg (Option String))
    (slowmode_delay : Arg (Option Int)) (default_auto_archive_duration : Arg Nat) :
    Except String (List (String × JsonValue)) :=
  let json : List (String × JsonValue) := []
  let json := appendArg json "name" JsonValue.str name
  let checked : Except String (List (String × JsonValue)) := match type with
    | .empty => .ok json
    | .given t =>
      if t = ChannelType.NEWS ∨ t = ChannelType.TEXT then
        .ok (json ++ [("type", .int t)])
      else
        .error "type parameter only supports ChannelType.NEWS and TEXT."
  match checked with
  | .error e => .error e
  | .ok json =>
    let json := appendArg json "position" JsonValue.int position
    let json := appendArg json "nsfw" JsonValue.bool nsfw
    let json := appendArg json "topic" jsonOptStr topic
    let json := appendArg json "rate_limit_per_user"
      (fun v => JsonValue.int (v.getD 0)) slowmode_delay
    let checked : Except String (List (String × JsonValue)) :=
      match default_auto_archive_duration with
      | .empty => .ok json
      | .given d =>
        if d = 60 ∨ d = 1440 ∨ d = 4320 ∨ d = 10080 then
          .ok (json ++ [("default_auto_archive_duration", .int d)])
        else
          .error "Invalid value given for default_auto_archive_duration supported values are 60, 1440, 4320 and 10080."
    match checked with
    | .error e => .error e
    | .ok json =>
      .ok (appendArg json "parent_id" jsonOptId parent)

/-- `TextChannel.edit`: build the body; on success, if the body is non-empty
issue `edit_channel` and re-hydrate from a non-empty response, else no-op. -/
def TextChannel.edit (st : TextChannelState) (name : Arg String) (type : Arg Nat)
    (position : Arg Int) (nsfw : Arg Bool) (parent : Arg (Option Nat))
    (topic : Arg (Option String)) (slowmode_delay : Arg (Option Int))
    (default_auto_archive_duration : Arg Nat) (response : Option ChannelData) :
    Except String (TextChannelState × List RestCall) :=
  match TextChannel.editJson name type position nsfw parent topic slowmode_delay
      default_auto_archive_duration with
  | .error e => .error e
  | .ok json =>
    if json.isEmpty then
      .ok (st, [])
    else
      match response with
      | some d => .ok (TextChannelState.updateWithData d, [.editChannel st.id json])
      | none => .ok (st, [.editChannel st.id json])

/-- Body construction of `CategoryChannel.edit`: only `name` and `position`,
no validation. -/
def CategoryChannel.editJson (name : Arg String) (position : Arg Int) :
    List (String × JsonValue) :=
  let json : List (String × JsonValue) := []
  let json := appendArg json "name" JsonValue.str name
  appendArg json "position" JsonValue.int position

/-- `CategoryChannel.edit`. -/
def CategoryChannel.edit (st : GuildChannelState) (name : Arg String)
    (position : Arg Int) (response : Option ChannelData) :
    GuildChannelState × List RestCall :=
  let json := CategoryChannel.editJson name position
  if json.isEmpty then
    (st, [])
  else
    match response with
    | some d => (GuildChannelState.updateWithData d, [.editChannel st.id json])
    | none => (st, [.editChannel st.id json])

/-- Body construction of `VoiceChannel.edit`, in source order: `name`,
`position`, `rtc_region`, `bitrate` (validated to `[8000, 128000]`),
`user_limit` (`None` normalized to `0`), `video_quality_mode`, `parent`. -/
def VoiceChannel.editJson (name : Arg String) (position : Arg Int)
    (bitrate : Arg Int) (parent : Arg (Option Nat)) (rtc_region : Arg (Option String))
    (user_limit : Arg (Option Int)) (video_quality_mode : Arg Int) :
    Except String (List (String × JsonValue)) :=
  let json : List (String × JsonValue) := []
  let json := appendArg json "name" JsonValue.str name
  let json := appendArg json "position" JsonValue.int position
  let json := appendArg json "rtc_region" jsonOptStr rtc_region
  let checked : Except String (List (String × JsonValue)) := match bitrate with
    | .empty => .ok json
    | .given b =>
      if b < 8000 ∨ b > 128000 then
        .error "Parameter bitrate must be in range of 8000 and 128000"
      else
        .ok (json ++ [("bitrate", .int b)])
  match checked with
  | .error e => .error e
  | .ok json =>
    let json := appendArg json "user_limit" (fun v => JsonValue.int (v.getD 0)) user_limit
    let json := appendArg json "video_quality_mode" JsonValue.int video_quality_mode
    .ok (appendArg json "parent_id" jsonOptId parent)

/-- `VoiceChannel.edit`. -/
def VoiceChannel.edit (st : VoiceChannelState) (name : Arg String)
    (position : Arg Int) (bitrate : Arg Int) (parent : Arg (Option Nat))
    (rtc_region : Arg (Option String)) (user_limit : Arg (Option Int))
    (video_quality_mode : Arg Int) (response : Option ChannelData) :
    Except String (VoiceChannelState × List RestCall) :=
  match VoiceChannel.editJson name position bitrate parent rtc_region user_limit
      video_quality_mode with
  | .error e => .error e
  | .ok json =>
    if json.isEmpty then
      .ok (st, [])
    else
      match response with
      | some d => .ok (VoiceChannelState.updateWithData d, [.editChannel st.id json])
      | none => .ok (st, [.editChannel st.id json])

/-- `_channel_factory` result: which constructor the factory selects. -/
inductive ChannelCtor where
  | text
  | news
  | category
  | voice
  | stage
  | base
deriving DecidableEq, Repr

/-- `_channel_factory` (`channels.py`): numeric type code to constructor,
with fallback to the base `GuildChannel`. -/
def channelFactory (type : Nat) : ChannelCtor :=
  if type = ChannelType.TEXT then .text
  else if type = ChannelType.NEWS then .news
  else if type = ChannelType.CATEGORY then .category
  else if type = ChannelType.VOICE then .voice
  else if type = ChannelType.STAGE then .stage
  else .base

/-! ### Guild members (`qord/models/guild_members.py`) -/

/-- A guild role; only the id is relevant to the modelled operations. -/
structure Role where
  id : Nat
deriving DecidableEq, Repr

/-- The user nested in a member; fully replaced on every re-hydration. -/
structure User where
  id : Nat
deriving DecidableEq, Repr

/-- The owning guild as seen by a member: its id and its role cache
(`guild.cache.get_role`). -/
structure GuildInfo where
  id : Nat
  get_role : Nat → Option Role

/-- A member payload as received from the collaborator.  Fields read with
`data.get(...)` in the source are `Option`s, with the default applied
during hydration; `roles` defaults to the empty list. -/
structure MemberData where
  user : User
  nick : Option String
  avatar : Option String
  deaf : Option Bool
  mute : Option Bool
  pending : Option Bool
  joined_at : Int
  premium_since : Option Int
  communication_disabled_until : Option Int
  roles : Option (List Nat)
deriving DecidableEq, Repr

/-- State of a `GuildMember`.  `roles` holds the results of role-cache
lookups, which can be `none` when an id is not in the cache. -/
structure GuildMember where
  guild : GuildInfo
  user : User
  nickname : Option String
  avatar : Option String
  deaf : Bool
  mute : Bool
  pending : Bool
  joined_at : Int
  premium_since : Option Int
  timeout_until : Option Int
  role_ids : List Nat
  roles : List (Option Role)

/-- The role-resolution loop of `GuildMember._update_with_data`: for each
role id, look it up in the guild role cache and append the result. -/
def resolveRoles (guild : GuildInfo) : List Nat → List (Option Role)
  | [] => []
  | role_id :: rest => guild.get_role role_id :: resolveRoles guild rest

/-- `GuildMember._update_with_data`: full re-hydration in place from a
payload (the guild back-reference is kept). -/
def GuildMember.updateWithData (m : GuildMember) (d : MemberData) : GuildMember :=
  let role_ids := d.roles.getD []
  { guild := m.guild
    user := d.user
    nickname := d.nick
    avatar := d.avatar
    deaf := d.deaf.getD false
    mute := d.mute.getD false
    pending := d.pending.getD false
    joined_at := d.joined_at
    premium_since := d.premium_since
    timeout_until := d.communication_disabled_until
    role_ids := role_ids
    roles := resolveRoles m.guild role_ids }

/-- `GuildMember.is_boosting`. -/
def GuildMember.is_boosting (m : GuildMember) : Bool :=
  m.premium_since.isSome

/-- `GuildMember.is_timed_out`: the current time `datetime.now()` is an
explicit argument; the source returns `now < timeout_until`. -/
def GuildMember.is_timed_out (m : GuildMember) (now : Int) : Bool :=
  match m.timeout_until with
  | none => false
  | some timeout_until => decide (now < timeout_until)

/-- Body construction of `GuildMember.edit`, in source order: `nick`,
`roles` (`None` normalized to the empty list, serialized as role ids),
`mute`, `deaf`, `communication_disabled_until`.  No validation occurs. -/
def GuildMember.editJson (nickname : Arg (Option String))
    (roles : Arg (Option (List Role))) (mute : Arg Bool) (deaf : Arg Bool)
    (timeout_until : Arg (Option Int)) : List (String × JsonValue) :=
  let json : List (String × JsonValue) := []
  let json := appendArg json "nick" jsonOptStr nickname
  let json := appendArg json "roles"
    (fun v => JsonValue.intList ((v.getD []).map Role.id)) roles
  let json := appendArg json "mute" JsonValue.bool mute
  let json := appendArg json "deaf" JsonValue.bool deaf
  appendArg json "communication_disabled_until" jsonOptTime timeout_until

/-- `GuildMember.edit`: if the body is non-empty, issue `edit_guild_member`
and unconditionally re-hydrate from the response; else no-op. -/
def GuildMember.edit (m : GuildMember) (nickname : Arg (Option String))
    (roles : Arg (Option (List Role))) (mute : Arg Bool) (deaf : Arg Bool)
    (timeout_until : Arg (Option Int)) (response : MemberData) :
    GuildMember × List RestCall :=
  let json := GuildMember.editJson nickname roles mute deaf timeout_until
  if json.isEmpty then
    (m, [])
  else
    (m.updateWithData response, [.editGuildMember m.guild.id m.user.id json])

/-- The per-role loop of `GuildMember.add_roles`: sequential individual
`add_guild_member_role` calls, skipping roles already in `existing` when
`ignore_extra` is set; returns the calls and the roles actually added. -/
def addRolesLoop (guild_id user_id : Nat) (existing : List Nat)
    (ignore_extra : Bool) : List Role → List RestCall × List Role
  | [] => ([], [])
  | role :: rest =>
    if role.id ∈ existing ∧ ignore_extra then
      addRolesLoop guild_id user_id existing ignore_extra rest
    else
      let (calls, ret) := addRolesLoop guild_id user_id existing ignore_extra rest
      (.addGuildMemberRole guild_id user_id role.id :: calls, role :: ret)

/-- `GuildMember.add_roles`.  With `overwrite` and a non-empty role list it
delegates to the bulk `edit(roles=...)` and returns the member's resolved
role list; otherwise it runs the per-role loop with no re-hydration and
returns the roles actually added.  The return list is over `Option Role`
because the bulk path returns `self.roles`, whose entries are cache-lookup
results. -/
def GuildMember.add_roles (m : GuildMember) (roles : List Role)
    (overwrite : Bool) (ignore_extra : Bool) (response : MemberData) :
    GuildMember × List RestCall × List (Option Role) :=
  if roles ≠ [] ∧ overwrite then
    let res := m.edit .empty (.given (some roles)) .empty .empty .empty response
    (res.1, res.2, res.1.roles)
  else
    let res := addRolesLoop m.guild.id m.user.id m.role_ids ignore_extra roles
    (m, res.1, res.2.map some)

/-- The per-role loop of `GuildMember.remove_roles`: sequential individual
`remove_guild_member_role` calls, skipping roles not in `existing` when
`ignore_extra` is set. -/
def removeRolesLoop (guild_id user_id : Nat) (existing : List Nat)
    (ignore_extra : Bool) : List Role → List RestCall × List Role
  | [] => ([], [])
  | role :: rest =>
    if role.id ∉ existing ∧ ignore_extra then
      removeRolesLoop guild_id user_id existing ignore_extra rest
    else
      let (calls, ret) := removeRolesLoop guild_id user_id existing ignore_extra rest
      (.removeGuildMemberRole guild_id user_id role.id :: calls, role :: ret)

/-- `GuildMember.remove_roles`.  With no roles it delegates to the bulk
`edit(roles=[])` and returns the member's resolved role list; otherwise it
runs the per-role loop with no re-hydration. -/
def GuildMember.remove_roles (m : GuildMember) (roles : List Role)
    (ignore_extra : Bool) (response : MemberData) :
    GuildMember × List RestCall × List (Option Role) :=
  if roles = [] then
    let res := m.edit .empty (.given (some [])) .empty .empty .empty response
    (res.1, res.2, res.1.roles)
  else
    let res := removeRolesLoop m.guild.id m.user.id m.role_ids ignore_extra roles
    (m, res.1, res.2.map some)

/-! ### Helper notions for stating the partial-update contract -/

/-- The body fragment contributed by one optional field: nothing when the
field is omitted, one key/value pair when it is given. -/
def argKV {α : Type} (k : String) (f : α → JsonValue) : Arg α → List (String × JsonValue)
  | .empty => []
  | .given v => [(k, f v)]

/-- How many keys an argument contributes: `0` when omitted, `1` when given. -/
def argCount {α : Type} : Arg α → Nat
  | .empty => 0
  | .given _ => 1

/-- Whether a body contains a given key. -/
def hasKey (json : List (String × JsonValue)) (k : String) : Bool :=
  json.any (fun p => p.1 = k)

/-! ### Characterization lemmas for the body builders -/

theorem appendArg_eq_argKV {α : Type} (json : List (String × JsonValue))
    (k : String) (f : α → JsonValue) (a : Arg α) :
    appendArg json k f a = json ++ argKV k f a := by
  cases a <;> simp [appendArg, argKV]

theorem hasKey_append (a b : List (String × JsonValue)) (k : String) :
    hasKey (a ++ b) k = (hasKey a k || hasKey b k) := by
  simp [hasKey]

theorem hasKey_argKV {α : Type} (k k2 : String) (f : α → JsonValue) (a : Arg α) :
    hasKey (argKV k f a) k2 = true ↔ (k = k2 ∧ a ≠ .empty) := by
  cases a <;> simp [hasKey, argKV]

theorem length_argKV {α : Type} (k : String) (f : α → JsonValue) (a : Arg α) :
    (argKV k f a).length = argCount a := by
  cases a <;> simp [argKV, argCount]

theorem mem_argKV {α : Type} (p : String × JsonValue) (k : String)
    (f : α → JsonValue) (a : Arg α) :
    p ∈ argKV k f a ↔ ∃ v, a = .given v ∧ p = (k, f v) := by
  cases a <;> simp [argKV]

/-- Successful body construction of `TextChannel.edit` yields exactly the
concatenation of the per-field fragments, in insertion order. -/
theorem textEditJson_ok (name : Arg String) (type : Arg Nat)
    (position : Arg Int) (nsfw : Arg Bool) (parent : Arg (Option Nat))
    (topic : Arg (Option String)) (slowmode_delay : Arg (Option Int))
    (default_auto_archive_duration : Arg Nat) (body : List (String × JsonValue))
    (h : TextChannel.editJson name type position nsfw parent topic slowmode_delay
      default_auto_archive_duration = .ok body) :
    body = argKV "name" JsonValue.str name ++
      argKV "type" (fun (t : Nat) => JsonValue.int t) type ++
      argKV "position" JsonValue.int position ++
      argKV "nsfw" JsonValue.bool nsfw ++
      argKV "topic" jsonOptStr topic ++
      argKV "rate_limit_per_user" (fun v => JsonValue.int (v.getD 0)) slowmode_delay ++
      argKV "default_auto_archive_duration" (fun (d : Nat) => JsonValue.int d)
        default_auto_archive_duration ++
      argKV "parent_id" jsonOptId parent := by
  cases type <;> cases default_auto_archive_duration <;>
    simp_all [TextChannel.editJson, appendArg_eq_argKV, argKV, List.append_assoc] <;>
    (try split_ifs at h) <;> simp_all [argKV, List.append_assoc]

/-- Successful body construction of `VoiceChannel.edit` yields exactly the
concatenation of the per-field fragments, in insertion order. -/
theorem voiceEditJson_ok (name : Arg String) (position : Arg Int)
    (bitrate : Arg Int) (parent : Arg (Option Nat)) (rtc_region : Arg (Option String))
    (user_limit : Arg (Option Int)) (video_quality_mode : Arg Int)
    (body : List (String × JsonValue))
    (h : VoiceChannel.editJson name position bitrate parent rtc_region user_limit
      video_quality_mode = .ok body) :
    body = argKV "name" JsonValue.str name ++
      argKV "position" JsonValue.int position ++
      argKV "rtc_region" jsonOptStr rtc_region ++
      argKV "bitrate" JsonValue.int bitrate ++
      argKV "user_limit" (fun v => JsonValue.int (v.getD 0)) user_limit ++
      argKV "video_quality_mode" JsonValue.int video_quality_mode ++
      argKV "parent_id" jsonOptId parent := by
  cases bitrate <;>
    simp_all [VoiceChannel.editJson, appendArg_eq_argKV, argKV, List.append_assoc] <;>
    (try split_ifs at h) <;> simp_all [argKV, List.append_assoc]

/-- The body of `CategoryChannel.edit` is the concatenation of the two
per-field fragments. -/
theorem categoryEditJson_eq (name : Arg String) (position : Arg Int) :
    CategoryChannel.editJson name position =
      argKV "name" JsonValue.str name ++ argKV "position" JsonValue.int position := by
  simp [CategoryChannel.editJson, appendArg_eq_argKV]

/-- The body of `GuildMember.edit` is the concatenation of the five
per-field fragments, in insertion order. -/
theorem memberEditJson_eq (nickname : Arg (Option String))
    (roles : Arg (Option (List Role))) (mute : Arg Bool) (deaf : Arg Bool)
    (timeout_until : Arg (Option Int)) :
    GuildMember.editJson nickname roles mute deaf timeout_until =
      argKV "nick" jsonOptStr nickname ++
      argKV "roles" (fun v => JsonValue.intList ((v.getD []).map Role.id)) roles ++
      argKV "mute" JsonValue.bool mute ++
      argKV "deaf" JsonValue.bool deaf ++
      argKV "communication_disabled_until" jsonOptTime timeout_until := by
  simp [GuildMember.editJson, appendArg_eq_argKV, List.append_assoc]

/-! ### Role-resolution and per-role-loop lemmas -/

theorem resolveRoles_length (guild : GuildInfo) (l : List Nat) :
    (resolveRoles guild l).length = l.length := by
  induction l with
  | nil => rfl
  | cons x xs ih => simp [resolveRoles, ih]

theorem resolveRoles_getElem? (guild : GuildInfo) (l : List Nat) (i : Nat) :
    (resolveRoles guild l)[i]? = (l[i]?).map guild.get_role := by
  induction l generalizing i with
  | nil => simp [resolveRoles]
  | cons x xs ih =>
    cases i with
    | zero => simp [resolveRoles]
    | succ j => simp [resolveRoles, ih]

/-- The correspondence invariant between `role_ids` and `roles`: same
length, and entry `i` of `roles` is the guild-cache lookup of entry `i`
of `role_ids`. -/
def memberRolesAligned (m : GuildMember) : Prop :=
  m.roles.length = m.role_ids.length ∧
  ∀ i : Nat, m.roles[i]? = (m.role_ids[i]?).map m.guild.get_role

theorem addRolesLoop_ignore_extra (gid uid : Nat) (existing : List Nat)
    (rs : List Role) :
    addRolesLoop gid uid existing true rs =
      ((rs.filter (fun r => decide (r.id ∉ existing))).map
        (fun r => RestCall.addGuildMemberRole gid uid r.id),
       rs.filter (fun r => decide (r.id ∉ existing))) := by
  induction rs with
  | nil => rfl
  | cons r rest ih =>
    by_cases hmem : r.id ∈ existing <;>
      simp [addRolesLoop, List.filter, hmem, ih]

/-! ### Concrete sample entities used by witnesses -/

/-- A sample guild whose role cache contains exactly the role with id 7. -/
def sampleGuild : GuildInfo :=
  { id := 1, get_role := fun rid => if rid = 7 then some { id := 7 } else none }

/-- A sample member of `sampleGuild` with a pending timeout at time 10. -/
def sampleMember : GuildMember :=
  { guild := sampleGuild
    user := { id := 2 }
    nickname := none
    avatar := none
    deaf := false
    mute := false
    pending := false
    joined_at := 0
    premium_since := none
    timeout_until := some 10
    role_ids := [7]
    roles := [some { id := 7 }]
    }

/-- A sample member payload carrying two role ids, one resolvable in
`sampleGuild` and one not. -/
def sampleMemberData : MemberData :=
  { user := { id := 2 }
    nick := none
    avatar := none
    deaf := none
    mute := none
    pending := none
    joined_at := 0
    premium_since := none
    communication_disabled_until := none
    roles := some [7, 9] }

/-- A sample voice-channel state. -/
def sampleVoice : VoiceChannelState :=
  { id := 5
    type := ChannelType.VOICE
    name := "general"
    position := 0
    parent_id := none
    bitrate := some 64000
    rtc_region := none
    user_limit := 0
    video_quality_mode := 1 }

/-- A sample text-channel state. -/
def sampleText : TextChannelState :=
  { id := 6
    type := ChannelType.TEXT
    name := "chat"
    position := 0
    parent_id := none
    topic := none
    last_message_id := none
    slowmode_delay := 0
    default_auto_archive_duration := 60
    nsfw := false
    last_pin_timestamp := none }

/-! ### Shared alignment helpers -/

theorem aligned_updateWithData (m : GuildMember) (d : MemberData) :
    memberRolesAligned (m.updateWithData d) := by
  constructor
  · simp [GuildMember.updateWithData, resolveRoles_length]
  · intro i
    simp [GuildMember.updateWithData, resolveRoles_getElem?]

theorem aligned_edit (m : GuildMember) (nickname : Arg (Option String))
    (roles : Arg (Option (List Role))) (mute deaf : Arg Bool)
    (timeout_until : Arg (Option Int)) (response : MemberData)
    (hm : memberRolesAligned m) :
    memberRolesAligned
      (GuildMember.edit m nickname roles mute deaf timeout_until response).1 := by
  by_cases hj : (GuildMember.editJson nickname roles mute deaf timeout_until).isEmpty
  · simpa [GuildMember.edit, hj] using hm
  · simpa [GuildMember.edit, hj] using aligned_updateWithData m response

/-! ### Claims -/

/-- C2: for every edit operation on channels and members, if every editable
field is omitted (left at the sentinel default) then no collaborator call is
made and the method returns normally without error, leaving the entity state
unchanged. -/
theorem claim_C2 :
    (∀ (st : TextChannelState) (response : Option ChannelData),
      TextChannel.edit st .empty .empty .empty .empty .empty .empty .empty .empty
        response = .ok (st, [])) ∧
    (∀ (st : VoiceChannelState) (response : Option ChannelData),
      VoiceChannel.edit st .empty .empty .empty .empty .empty .empty .empty
        response = .ok (st, [])) ∧
    (∀ (st : GuildChannelState) (response : Option ChannelData),
      CategoryChannel.edit st .empty .empty response = (st, [])) ∧
    (∀ (m : GuildMember) (response : MemberData),
      GuildMember.edit m .empty .empty .empty .empty .empty response = (m, [])) :=
  ⟨fun _ _ => rfl, fun _ _ => rfl, fun _ _ => rfl, fun _ _ => rfl⟩

/-- C5: `is_timed_out` is false when `timeout_until` is null, false when it
lies in the past of the supplied current time, true when it lies in the
future; it is a pure function of the member state and the current time, so
each call re-evaluates the comparison against the time of that call. -/
theorem claim_C5 :
    ∀ (m : GuildMember) (now : Int),
      (m.timeout_until = none → m.is_timed_out now = false) ∧
      (∀ t, m.timeout_until = some t → t ≤ now → m.is_timed_out now = false) ∧
      (∀ t, m.timeout_until = some t → now < t → m.is_timed_out now = true) ∧
      (m.is_timed_out now = true ↔ ∃ t, m.timeout_until = some t ∧ now < t) := by
  intro m now
  refine ⟨fun h => by simp [GuildMember.is_timed_out, h],
    fun t h hle => by simp [GuildMember.is_timed_out, h]; omega,
    fun t h hlt => by simp [GuildMember.is_timed_out, h, hlt],
    ?_⟩
  cases h : m.timeout_until <;> simp [GuildMember.is_timed_out, h]

/-- Witness for C5 at a concrete member whose timeout expires at time 10:
timed out at time 5, no longer timed out at time 15. -/
theorem claim_C5_witness :
    sampleMember.is_timed_out 5 = true ∧ sampleMember.is_timed_out 15 = false :=
  ⟨(claim_C5 sampleMember 5).2.2.1 10 rfl (by decide),
   (claim_C5 sampleMember 15).2.1 10 rfl (by decide)⟩

/-- C6: `add_roles` without overwrite and with `ignore_extra` issues one
individual add-role call per given role, sequentially in the order passed,
skipping roles already in `role_ids` with no call; it returns exactly the
sub-list of given roles that triggered a call, and the member state is not
re-hydrated. -/
theorem claim_C6 :
    ∀ (m : GuildMember) (roles : List Role) (response : MemberData),
      GuildMember.add_roles m roles false true response =
        (m,
         (roles.filter fun r => decide (r.id ∉ m.role_ids)).map
           (fun r => RestCall.addGuildMemberRole m.guild.id m.user.id r.id),
         (roles.filter fun r => decide (r.id ∉ m.role_ids)).map some) := by
  intro m roles response
  simp [GuildMember.add_roles, addRolesLoop_ignore_extra]

/-- C7: `remove_roles` with zero roles makes a single bulk edit call whose
body carries an empty role-id list, re-hydrates the member from the
response, and returns the member post-re-hydration resolved role list;
this coincides with `edit(roles=[])`. -/
theorem claim_C7 :
    ∀ (m : GuildMember) (ignore_extra : Bool) (response : MemberData),
      GuildMember.remove_roles m [] ignore_extra response =
        (m.updateWithData response,
         [RestCall.editGuildMember m.guild.id m.user.id
           [("roles", JsonValue.intList [])]],
         (m.updateWithData response).roles) ∧
      GuildMember.remove_roles m [] ignore_extra response =
        ((GuildMember.edit m .empty (.given (some [])) .empty .empty .empty response).1,
         (GuildMember.edit m .empty (.given (some [])) .empty .empty .empty response).2,
         (GuildMember.edit m .empty (.given (some [])) .empty .empty .empty
           response).1.roles) := by
  intro m ig resp
  exact ⟨rfl, rfl⟩

/-- C8: the channel-variant factory is a pure total mapping sending the five
known numeric codes to their variants and every other code to the base
`GuildChannel` constructor. -/
theorem claim_C8 :
    channelFactory ChannelType.TEXT = ChannelCtor.text ∧
    channelFactory ChannelType.NEWS = ChannelCtor.news ∧
    channelFactory ChannelType.CATEGORY = ChannelCtor.category ∧
    channelFactory ChannelType.VOICE = ChannelCtor.voice ∧
    channelFactory ChannelType.STAGE = ChannelCtor.stage ∧
    ∀ t : Nat, t ≠ ChannelType.TEXT → t ≠ ChannelType.NEWS →
      t ≠ ChannelType.CATEGORY → t ≠ ChannelType.VOICE → t ≠ ChannelType.STAGE →
      channelFactory t = ChannelCtor.base := by
  refine ⟨by decide, by decide, by decide, by decide, by decide, ?_⟩
  intro t h1 h2 h3 h4 h5
  unfold channelFactory
  rw [if_neg h1, if_neg h2, if_neg h3, if_neg h4, if_neg h5]

/-- Witness for C8: the unknown code 99 yields the base constructor. -/
theorem claim_C8_witness : channelFactory 99 = ChannelCtor.base :=
  claim_C8.2.2.2.2.2 99 (by decide) (by decide) (by decide) (by decide) (by decide)

/-- C9: after every hydration or re-hydration, `role_ids` and `roles` have
the same length and order, with `roles[i]` the cache lookup of
`role_ids[i]`; `edit`, `add_roles` and `remove_roles` preserve this
correspondence. -/
theorem claim_C9 :
    (∀ (m : GuildMember) (d : MemberData),
      memberRolesAligned (m.updateWithData d)) ∧
    (∀ (m : GuildMember) (nickname : Arg (Option String))
        (roles : Arg (Option (List Role))) (mute deaf : Arg Bool)
        (timeout_until : Arg (Option Int)) (response : MemberData),
      memberRolesAligned m →
      memberRolesAligned
        (GuildMember.edit m nickname roles mute deaf timeout_until response).1) ∧
    (∀ (m : GuildMember) (roles : List Role) (overwrite ignore_extra : Bool)
        (response : MemberData),
      memberRolesAligned m →
      memberRolesAligned
        (GuildMember.add_roles m roles overwrite ignore_extra response).1) ∧
    (∀ (m : GuildMember) (roles : List Role) (ignore_extra : Bool)
        (response : MemberData),
      memberRolesAligned m →
      memberRolesAligned
        (GuildMember.remove_roles m roles ignore_extra response).1) := by
  refine ⟨aligned_updateWithData, aligned_edit, ?_, ?_⟩
  · intro m roles overwrite ignore_extra response hm
    unfold GuildMember.add_roles
    split
    · exact aligned_edit m _ _ _ _ _ response hm
    · exact hm
  · intro m roles ignore_extra response hm
    unfold GuildMember.remove_roles
    split
    · exact aligned_edit m _ _ _ _ _ response hm
    · exact hm

/-- Witness for C9: hydrating the sample member from the sample payload
keeps the two lists aligned, and an all-omitted edit preserves alignment. -/
theorem claim_C9_witness :
    memberRolesAligned (sampleMember.updateWithData sampleMemberData) ∧
    memberRolesAligned
      (GuildMember.edit (sampleMember.updateWithData sampleMemberData)
        .empty .empty .empty .empty .empty sampleMemberData).1 :=
  ⟨claim_C9.1 sampleMember sampleMemberData,
   claim_C9.2.1 (sampleMember.updateWithData sampleMemberData)
     .empty .empty .empty .empty .empty sampleMemberData
     (claim_C9.1 sampleMember sampleMemberData)⟩

/-- C10: when a role id in a member payload is not in the guild role cache,
hydration still appends the `none` lookup result to `roles` at the same
index at which the id sits in `role_ids`. -/
theorem claim_C10 :
    ∀ (m : GuildMember) (d : MemberData) (i rid : Nat),
      (m.updateWithData d).role_ids[i]? = some rid →
      m.guild.get_role rid = none →
      (m.updateWithData d).roles[i]? = some none := by
  intro m d i rid hid hnone
  have hmap : (m.updateWithData d).roles[i]? =
      ((m.updateWithData d).role_ids[i]?).map m.guild.get_role := by
    simp [GuildMember.updateWithData, resolveRoles_getElem?]
  rw [hmap, hid]
  simp [hnone]

/-- Witness for C10: payload role id 9 is not in the sample guild cache, so
index 1 of `roles` is `none`. -/
theorem claim_C10_witness :
    (sampleMember.updateWithData sampleMemberData).roles[1]? = some none :=
  claim_C10 sampleMember sampleMemberData 1 9 (by decide) (by decide)

/-- C1: for every edit operation and editable field, the outgoing body has a
key for the field iff the caller passed something other than the sentinel
(so the number of keys equals the number of explicitly passed fields, and a
single explicit field yields exactly its own key); an explicit null on a
clearable field produces the clearing wire value: literal null for
topic/nickname/parent_id/rtc_region/communication_disabled_until, 0 for
slowmode_delay/user_limit, and the empty list for roles. -/
theorem claim_C1 :
    (∀ (name : Arg String) (type : Arg Nat) (position : Arg Int) (nsfw : Arg Bool)
        (parent : Arg (Option Nat)) (topic : Arg (Option String))
        (slowmode_delay : Arg (Option Int)) (default_auto_archive_duration : Arg Nat)
        (body : List (String × JsonValue)),
      TextChannel.editJson name type position nsfw parent topic slowmode_delay
        default_auto_archive_duration = .ok body →
      (hasKey body "name" = true ↔ name ≠ .empty) ∧
      (hasKey body "type" = true ↔ type ≠ .empty) ∧
      (hasKey body "position" = true ↔ position ≠ .empty) ∧
      (hasKey body "nsfw" = true ↔ nsfw ≠ .empty) ∧
      (hasKey body "topic" = true ↔ topic ≠ .empty) ∧
      (hasKey body "rate_limit_per_user" = true ↔ slowmode_delay ≠ .empty) ∧
      (hasKey body "default_auto_archive_duration" = true ↔
        default_auto_archive_duration ≠ .empty) ∧
      (hasKey body "parent_id" = true ↔ parent ≠ .empty) ∧
      body.length = argCount name + argCount type + argCount position +
        argCount nsfw + argCount topic + argCount slowmode_delay +
        argCount default_auto_archive_duration + argCount parent ∧
      (topic = .given none → ("topic", JsonValue.null) ∈ body) ∧
      (slowmode_delay = .given none → ("rate_limit_per_user", JsonValue.int 0) ∈ body) ∧
      (parent = .given none → ("parent_id", JsonValue.null) ∈ body)) ∧
    (∀ (name : Arg String) (position : Arg Int) (bitrate : Arg Int)
        (parent : Arg (Option Nat)) (rtc_region : Arg (Option String))
        (user_limit : Arg (Option Int)) (video_quality_mode : Arg Int)
        (body : List (String × JsonValue)),
      VoiceChannel.editJson name position bitrate parent rtc_region user_limit
        video_quality_mode = .ok body →
      (hasKey body "name" = true ↔ name ≠ .empty) ∧
      (hasKey body "position" = true ↔ position ≠ .empty) ∧
      (hasKey body "rtc_region" = true ↔ rtc_region ≠ .empty) ∧
      (hasKey body "bitrate" = true ↔ bitrate ≠ .empty) ∧
      (hasKey body "user_limit" = true ↔ user_limit ≠ .empty) ∧
      (hasKey body "video_quality_mode" = true ↔ video_quality_mode ≠ .empty) ∧
      (hasKey body "parent_id" = true ↔ parent ≠ .empty) ∧
      body.length = argCount name + argCount position + argCount bitrate +
        argCount rtc_region + argCount user_limit + argCount video_quality_mode +
        argCount parent ∧
      (rtc_region = .given none → ("rtc_region", JsonValue.null) ∈ body) ∧
      (user_limit = .given none → ("user_limit", JsonValue.int 0) ∈ body) ∧
      (parent = .given none → ("parent_id", JsonValue.null) ∈ body)) ∧
    (∀ (name : Arg String) (position : Arg Int),
      (hasKey (CategoryChannel.editJson name position) "name" = true ↔ name ≠ .empty) ∧
      (hasKey (CategoryChannel.editJson name position) "position" = true ↔
        position ≠ .empty) ∧
      (CategoryChannel.editJson name position).length =
        argCount name + argCount position) ∧
    (∀ (nickname : Arg (Option String)) (roles : Arg (Option (List Role)))
        (mute deaf : Arg Bool) (timeout_until : Arg (Option Int)),
      (hasKey (GuildMember.editJson nickname roles mute deaf timeout_until)
        "nick" = true ↔ nickname ≠ .empty) ∧
      (hasKey (GuildMember.editJson nickname roles mute deaf timeout_until)
        "roles" = true ↔ roles ≠ .empty) ∧
      (hasKey (GuildMember.editJson nickname roles mute deaf timeout_until)
        "mute" = true ↔ mute ≠ .empty) ∧
      (hasKey (GuildMember.editJson nickname roles mute deaf timeout_until)
        "deaf" = true ↔ deaf ≠ .empty) ∧
      (hasKey (GuildMember.editJson nickname roles mute deaf timeout_until)
        "communication_disabled_until" = true ↔ timeout_until ≠ .empty) ∧
      (GuildMember.editJson nickname roles mute deaf timeout_until).length =
        argCount nickname + argCount roles + argCount mute + argCount deaf +
        argCount timeout_until ∧
      (nickname = .given none →
        ("nick", JsonValue.null) ∈ GuildMember.editJson nickname roles mute deaf
          timeout_until) ∧
      (roles = .given none →
        ("roles", JsonValue.intList []) ∈ GuildMember.editJson nickname roles mute
          deaf timeout_until) ∧
      (timeout_until = .given none →
        ("communication_disabled_until", JsonValue.null) ∈
          GuildMember.editJson nickname roles mute deaf timeout_until)) := by
  refine ⟨?_, ?_, ?_, ?_⟩
  · intro name type position nsfw parent topic slowmode_delay dur body h
    have hb := textEditJson_ok name type position nsfw parent topic
      slowmode_delay dur body h
    subst hb
    refine ⟨?_, ?_, ?_, ?_, ?_, ?_, ?_, ?_, ?_, ?_, ?_, ?_⟩ <;>
      first
        | (intro hgiven; subst hgiven; simp [argKV, jsonOptStr, jsonOptId])
        | (simp [hasKey_append, hasKey_argKV]; done)
        | (simp [List.length_append, length_argKV]; (try omega); done)
  · intro name position bitrate parent rtc_region user_limit vqm body h
    have hb := voiceEditJson_ok name position bitrate parent rtc_region
      user_limit vqm body h
    subst hb
    refine ⟨?_, ?_, ?_, ?_, ?_, ?_, ?_, ?_, ?_, ?_, ?_⟩ <;>
      first
        | (intro hgiven; subst hgiven; simp [argKV, jsonOptStr, jsonOptId])
        | (simp [hasKey_append, hasKey_argKV]; done)
        | (simp [List.length_append, length_argKV]; (try omega); done)
  · intro name position
    rw [categoryEditJson_eq]
    refine ⟨?_, ?_, ?_⟩ <;>
      first
        | (simp [hasKey_append, hasKey_argKV]; done)
        | (simp [List.length_append, length_argKV]; (try omega); done)
  · intro nickname roles mute deaf timeout_until
    rw [memberEditJson_eq]
    refine ⟨?_, ?_, ?_, ?_, ?_, ?_, ?_, ?_, ?_⟩ <;>
      first
        | (intro hgiven; subst hgiven; simp [argKV, jsonOptStr, jsonOptTime])
        | (simp [hasKey_append, hasKey_argKV]; done)
        | (simp [List.length_append, length_argKV]; (try omega); done)

/-- Witness for C1: a text-channel edit body with only an explicit null
topic has exactly the one key `topic` carrying literal null, and a member
edit body with only an explicit null roles list carries the empty list. -/
theorem claim_C1_witness :
    (hasKey [("topic", JsonValue.null)] "topic" = true) ∧
    (("topic", JsonValue.null) ∈ ([("topic", JsonValue.null)] :
      List (String × JsonValue))) ∧
    (List.length [("topic", JsonValue.null)] = 1) ∧
    (("roles", JsonValue.intList []) ∈
      GuildMember.editJson .empty (.given none) .empty .empty .empty) := by
  obtain ⟨htext, hvoice, hcat, hmem⟩ := claim_C1
  obtain ⟨h1, h2, h3, h4, h5, h6, h7, h8, hlen, htopic, hslow, hparent⟩ :=
    htext .empty .empty .empty .empty .empty (.given none) .empty .empty
      [("topic", JsonValue.null)] rfl
  refine ⟨h5.mpr (by simp), htopic rfl, by simpa using hlen, ?_⟩
  exact (hmem .empty (.given none) .empty .empty .empty).2.2.2.2.2.2.2.1 rfl

/-- C3: `VoiceChannel.edit` with an explicit bitrate raises a local
validation error — returning before any collaborator call and thus with no
state mutation — exactly when the bitrate lies outside [8000, 128000]; in
range it proceeds to the `edit_channel` call with the bitrate in the body. -/
theorem claim_C3 :
    ∀ (st : VoiceChannelState) (name : Arg String) (position : Arg Int) (b : Int)
      (parent : Arg (Option Nat)) (rtc_region : Arg (Option String))
      (user_limit : Arg (Option Int)) (video_quality_mode : Arg Int)
      (response : Option ChannelData),
      ((∃ e, VoiceChannel.edit st name position (.given b) parent rtc_region
          user_limit video_quality_mode response = .error e) ↔
        (b < 8000 ∨ b > 128000)) ∧
      (8000 ≤ b → b ≤ 128000 →
        ∃ st2 body,
          VoiceChannel.edit st name position (.given b) parent rtc_region
            user_limit video_quality_mode response =
            .ok (st2, [RestCall.editChannel st.id body]) ∧
          ("bitrate", JsonValue.int b) ∈ body) := by
  intro st name position b parent rtc_region user_limit vqm response
  by_cases hb : b < 8000 ∨ b > 128000
  · have hJ : VoiceChannel.editJson name position (.given b) parent rtc_region
        user_limit vqm =
        .error "Parameter bitrate must be in range of 8000 and 128000" := by
      simp [VoiceChannel.editJson, hb]
    refine ⟨⟨fun _ => hb,
      fun _ => ⟨"Parameter bitrate must be in range of 8000 and 128000",
        by simp [VoiceChannel.edit, hJ]⟩⟩, ?_⟩
    intro h1 h2
    exfalso
    omega
  · rcases hJ : VoiceChannel.editJson name position (.given b) parent rtc_region
        user_limit vqm with e | body
    · exfalso
      revert hJ
      simp [VoiceChannel.editJson, hb]
    · have hchar := voiceEditJson_ok name position (.given b) parent
        rtc_region user_limit vqm body hJ
      have hmem : ("bitrate", JsonValue.int b) ∈ body := by
        rw [hchar]
        simp [argKV]
      have hne : body.isEmpty = false := by
        rcases body with _ | ⟨p, rest⟩
        · exact absurd hmem (by simp)
        · rfl
      refine ⟨⟨?_, fun h => absurd h hb⟩, ?_⟩
      · rintro ⟨e, he⟩
        cases response <;> simp [VoiceChannel.edit, hJ, hne] at he
      · intro h1 h2
        cases response with
        | none => exact ⟨st, body, by simp [VoiceChannel.edit, hJ, hne], hmem⟩
        | some d =>
          exact ⟨VoiceChannelState.updateWithData d, body,
            by simp [VoiceChannel.edit, hJ, hne], hmem⟩

/-- Witness for C3: bitrate 7999 and 128001 are rejected locally with no
call, while the boundary values 8000 and 128000 proceed to the call. -/
theorem claim_C3_witness :
    (∃ e, VoiceChannel.edit sampleVoice .empty .empty (.given 7999) .empty .empty
      .empty .empty none = .error e) ∧
    (∃ e, VoiceChannel.edit sampleVoice .empty .empty (.given 128001) .empty .empty
      .empty .empty none = .error e) ∧
    (∃ st2 body, VoiceChannel.edit sampleVoice .empty .empty (.given 8000) .empty
      .empty .empty .empty none = .ok (st2, [RestCall.editChannel sampleVoice.id body]) ∧
      ("bitrate", JsonValue.int 8000) ∈ body) ∧
    (∃ st2 body, VoiceChannel.edit sampleVoice .empty .empty (.given 128000) .empty
      .empty .empty .empty none = .ok (st2, [RestCall.editChannel sampleVoice.id body]) ∧
      ("bitrate", JsonValue.int 128000) ∈ body) :=
  ⟨(claim_C3 sampleVoice .empty .empty 7999 .empty .empty .empty .empty none).1.mpr
    (by decide),
   (claim_C3 sampleVoice .empty .empty 128001 .empty .empty .empty .empty none).1.mpr
    (by decide),
   (claim_C3 sampleVoice .empty .empty 8000 .empty .empty .empty .empty none).2
    (by decide) (by decide),
   (claim_C3 sampleVoice .empty .empty 128000 .empty .empty .empty .empty none).2
    (by decide) (by decide)⟩

/-- C4: `TextChannel.edit` raises a local validation error before any
collaborator call when an explicit `type` is not TEXT or NEWS, or when an
explicit `default_auto_archive_duration` is not one of 60/1440/4320/10080;
a valid duration proceeds to the call, and an explicit null
`slowmode_delay` is not an error and is normalized to 0 in the body. -/
theorem claim_C4 :
    ∀ (st : TextChannelState) (response : Option ChannelData),
      (∀ (name : Arg String) (position : Arg Int) (nsfw : Arg Bool)
          (parent : Arg (Option Nat)) (topic : Arg (Option String))
          (slowmode_delay : Arg (Option Int)) (dur : Arg Nat) (t : Nat),
        t ≠ ChannelType.TEXT → t ≠ ChannelType.NEWS →
        ∃ e, TextChannel.edit st name (.given t) position nsfw parent topic
          slowmode_delay dur response = .error e) ∧
      (∀ (name : Arg String) (type : Arg Nat) (position : Arg Int) (nsfw : Arg Bool)
          (parent : Arg (Option Nat)) (topic : Arg (Option String))
          (slowmode_delay : Arg (Option Int)) (d : Nat),
        d ≠ 60 → d ≠ 1440 → d ≠ 4320 → d ≠ 10080 →
        ∃ e, TextChannel.edit st name type position nsfw parent topic
          slowmode_delay (.given d) response = .error e) ∧
      (∀ (name : Arg String) (position : Arg Int) (nsfw : Arg Bool)
          (parent : Arg (Option Nat)) (topic : Arg (Option String))
          (slowmode_delay : Arg (Option Int)) (d : Nat),
        (d = 60 ∨ d = 1440 ∨ d = 4320 ∨ d = 10080) →
        ∃ st2 body, TextChannel.edit st name .empty position nsfw parent topic
          slowmode_delay (.given d) response =
          .ok (st2, [RestCall.editChannel st.id body]) ∧
          ("default_auto_archive_duration", JsonValue.int d) ∈ body) ∧
      (∀ (name : Arg String) (position : Arg Int) (nsfw : Arg Bool)
          (parent : Arg (Option Nat)) (topic : Arg (Option String)),
        ∃ st2 body, TextChannel.edit st name .empty position nsfw parent topic
          (.given none) .empty response =
          .ok (st2, [RestCall.editChannel st.id body]) ∧
          ("rate_limit_per_user", JsonValue.int 0) ∈ body) := by
  intro st response
  refine ⟨?_, ?_, ?_, ?_⟩
  · intro name position nsfw parent topic slowmode_delay dur t h1 h2
    have hcond : ¬(t = ChannelType.NEWS ∨ t = ChannelType.TEXT) := by
      rintro (h | h)
      · exact h2 h
      · exact h1 h
    rcases hJ : TextChannel.editJson name (.given t) position nsfw parent topic
        slowmode_delay dur with e | body
    · exact ⟨e, by simp [TextChannel.edit, hJ]⟩
    · exfalso
      simp [TextChannel.editJson, hcond] at hJ
  · intro name type position nsfw parent topic slowmode_delay d hd1 hd2 hd3 hd4
    have hdcond : ¬(d = 60 ∨ d = 1440 ∨ d = 4320 ∨ d = 10080) := by
      rintro (h | h | h | h)
      · exact hd1 h
      · exact hd2 h
      · exact hd3 h
      · exact hd4 h
    rcases hJ : TextChannel.editJson name type position nsfw parent topic
        slowmode_delay (.given d) with e | body
    · exact ⟨e, by simp [TextChannel.edit, hJ]⟩
    · exfalso
      cases type with
      | empty => simp [TextChannel.editJson, hdcond] at hJ
      | given t =>
        by_cases ht : t = ChannelType.NEWS ∨ t = ChannelType.TEXT
        · simp [TextChannel.editJson, ht, hdcond] at hJ
        · simp [TextChannel.editJson, ht] at hJ
  · intro name position nsfw parent topic slowmode_delay d hd
    rcases hJ : TextChannel.editJson name .empty position nsfw parent topic
        slowmode_delay (.given d) with e | body
    · exfalso
      revert hJ
      simp [TextChannel.editJson, hd]
    · have hchar := textEditJson_ok name .empty position nsfw parent topic
        slowmode_delay (.given d) body hJ
      have hmem : ("default_auto_archive_duration", JsonValue.int d) ∈ body := by
        rw [hchar]
        simp [argKV]
      have hne : body.isEmpty = false := by
        rcases body with _ | ⟨p, rest⟩
        · exact absurd hmem (by simp)
        · rfl
      cases response with
      | none => exact ⟨st, body, by simp [TextChannel.edit, hJ, hne], hmem⟩
      | some dd =>
        exact ⟨TextChannelState.updateWithData dd, body,
          by simp [TextChannel.edit, hJ, hne], hmem⟩
  · intro name position nsfw parent topic
    rcases hJ : TextChannel.editJson name .empty position nsfw parent topic
        (.given none) .empty with e | body
    · exfalso
      revert hJ
      simp [TextChannel.editJson]
    · have hchar := textEditJson_ok name .empty position nsfw parent topic
        (.given none) .empty body hJ
      have hmem : ("rate_limit_per_user", JsonValue.int 0) ∈ body := by
        rw [hchar]
        simp [argKV]
      have hne : body.isEmpty = false := by
        rcases body with _ | ⟨p, rest⟩
        · exact absurd hmem (by simp)
        · rfl
      cases response with
      | none => exact ⟨st, body, by simp [TextChannel.edit, hJ, hne], hmem⟩
      | some dd =>
        exact ⟨TextChannelState.updateWithData dd, body,
          by simp [TextChannel.edit, hJ, hne], hmem⟩

/-- Witness for C4: an explicit type VOICE raises, duration 120 raises,
duration 1440 proceeds to the call, and an explicit null slowmode delay
proceeds to the call with the key carrying 0. -/
theorem claim_C4_witness :
    (∃ e, TextChannel.edit sampleText .empty (.given ChannelType.VOICE) .empty
      .empty .empty .empty .empty .empty none = .error e) ∧
    (∃ e, TextChannel.edit sampleText .empty .empty .empty .empty .empty .empty
      .empty (.given 120) none = .error e) ∧
    (∃ st2 body, TextChannel.edit sampleText .empty .empty .empty .empty .empty
      .empty .empty (.given 1440) none =
      .ok (st2, [RestCall.editChannel sampleText.id body]) ∧
      ("default_auto_archive_duration", JsonValue.int 1440) ∈ body) ∧
    (∃ st2 body, TextChannel.edit sampleText .empty .empty .empty .empty .empty
      .empty (.given none) .empty none =
      .ok (st2, [RestCall.editChannel sampleText.id body]) ∧
      ("rate_limit_per_user", JsonValue.int 0) ∈ body) := by
  obtain ⟨h1, h2, h3, h4⟩ := claim_C4 sampleText none
  exact ⟨h1 .empty .empty .empty .empty .empty .empty .empty ChannelType.VOICE
      (by decide) (by decide),
    h2 .empty .empty .empty .empty .empty .empty .empty 120
      (by decide) (by decide) (by decide) (by decide),
    h3 .empty .empty .empty .empty .empty .empty 1440 (by decide),
    h4 .empty .empty .empty .empty .empty⟩
